import Mathlib

/-!
Verification of the data-cleaning and metrics-reporting core of the
credit-card default prediction script (`src/homework/homework.py`).

The script's own code consists of:
  * `limpiarDatos` — pandas dataframe cleaning,
  * `metricas` — scalar metrics (precision, balanced accuracy, recall, F1)
    computed from model predictions with `zero_division=0`,
  * `matrizConfusion` — confusion-matrix records built by indexing rows and
    columns 0 and 1 of `sklearn.metrics.confusion_matrix`,
  * `guardarMetricas` — writing the four records as newline-delimited JSON.

We embed these in Lean.  A dataframe is a list of column names plus rows of
cells, where a cell is `Option Int` (`none` models NaN / a missing value).
Model predictions are modelled as a function from an abstract feature-table
type to a list of labels; metric values are computed in `ℚ` (the script
computes in binary floating point, but every claim we settle concerns exact
values: zeros, counts, and equalities between two runs, which are unaffected
by the idealisation).
-/

namespace Homework

/-- A dataframe cell: `none` models pandas NaN (a missing value). -/
abbrev Cell := Option Int

/-- A pandas DataFrame: ordered column names, rows of cells (each row is
index-aligned with `cols`), and the set of columns whose dtype is
`category` (raw CSV data starts with none). -/
structure DataFrame where
  cols : List String
  rows : List (List Cell)
  catCols : List String
deriving Repr, DecidableEq

/-- A dataframe is well formed when every row has exactly one cell per
column (always true of data loaded from CSV). -/
def DataFrame.WF (df : DataFrame) : Prop :=
  ∀ r ∈ df.rows, r.length = df.cols.length

instance (df : DataFrame) : Decidable df.WF := by
  unfold DataFrame.WF; infer_instance

/-- First cell of a row whose column name is `c`; `none` if the column is
absent.  `pairs` is the row zipped with the column names. -/
def lookupCol (c : String) : List (String × Cell) → Option Cell
  | [] => none
  | (c', v) :: rest => if c' = c then some v else lookupCol c rest

/-- `df["c"]` for one row: the cell under column `c` (missing column and
NaN both collapse to `none`; the script never reads an absent column). -/
def getCell (cols : List String) (r : List Cell) (c : String) : Cell :=
  (lookupCol c (cols.zip r)).getD none

/-- `df.rename(columns={old: new})` on the column-name list. -/
def renameCols (old new : String) (cols : List String) : List String :=
  cols.map fun c => if c = old then new else c

/-- `df.rename(columns={old: new})`: renames matching column labels,
including in the categorical-dtype bookkeeping; rows are untouched. -/
def renameCol (old new : String) (df : DataFrame) : DataFrame :=
  { cols := renameCols old new df.cols
    rows := df.rows
    catCols := renameCols old new df.catCols }

/-- One row of `df.drop(columns=[c])`: every cell lying under a column
labelled `c` is removed. -/
def dropColRow (cols : List String) (c : String) (r : List Cell) : List Cell :=
  ((cols.zip r).filter (fun cv => cv.1 ≠ c)).map (·.2)

/-- `df.drop(columns=[c])`: drops every column labelled `c`. -/
def dropCol (c : String) (df : DataFrame) : DataFrame :=
  { cols := df.cols.filter (· ≠ c)
    rows := df.rows.map (dropColRow df.cols c)
    catCols := df.catCols.filter (· ≠ c) }

/-- `df.dropna()`: keeps exactly the rows with no missing cell. -/
def dropna (df : DataFrame) : DataFrame :=
  { df with rows := df.rows.filter fun r => r.all (·.isSome) }

/-- The boolean mask `(df["EDUCATION"] != 0) & (df["MARRIAGE"] != 0)` for
one row (pandas: NaN compares `!= 0` as true, matching `none ≠ some 0`). -/
def keepRow (cols : List String) (r : List Cell) : Bool :=
  (getCell cols r "EDUCATION" ≠ some 0) && (getCell cols r "MARRIAGE" ≠ some 0)

/-- `df[(df["EDUCATION"] != 0) & (df["MARRIAGE"] != 0)]`. -/
def filterEduMarriage (df : DataFrame) : DataFrame :=
  { df with rows := df.rows.filter (keepRow df.cols) }

/-- `lambda x: 4 if x >= 4 else x`. -/
def recodeEdu (x : Int) : Int := if x ≥ 4 then 4 else x

/-- One row of the EDUCATION recode: only cells under a column labelled
`"EDUCATION"` are rewritten. -/
def recodeRow (cols : List String) (r : List Cell) : List Cell :=
  List.zipWith (fun c v => if c = "EDUCATION" then v.map recodeEdu else v) cols r

/-- `df["EDUCATION"] = df["EDUCATION"].apply(lambda x: 4 if x >= 4 else x)
.astype("category")`: rewrites the EDUCATION column and records its dtype
as categorical. -/
def recodeEducation (df : DataFrame) : DataFrame :=
  { cols := df.cols
    rows := df.rows.map (recodeRow df.cols)
    catCols := if "EDUCATION" ∈ df.catCols then df.catCols else df.catCols ++ ["EDUCATION"] }

/-- `limpiarDatos(df)`: rename the label column, drop `ID`, drop rows with
missing values, drop rows whose EDUCATION or MARRIAGE code is 0, recode
EDUCATION (≥ 4 ↦ 4, categorical), then split into `(df, x, y)`.
`df = df.copy()` is value copying in this pure model; the aliasing claim is
settled separately over the store semantics `limpiarDatosStore`. -/
def limpiarDatos (df : DataFrame) : DataFrame × DataFrame × List Cell :=
  let d1 := renameCol "default payment next month" "default" df
  let d2 := dropCol "ID" d1
  let d3 := dropna d2
  let d4 := filterEduMarriage d3
  let d5 := recodeEducation d4
  let x := dropCol "default" d5
  let y := d5.rows.map fun r => getCell d5.cols r "default"
  (d5, x, y)

/-! ## Scalar metrics (`metricas`)

`precision_score`, `recall_score` and `f1_score` are called with the
sklearn defaults for binary data (positive label 1) and `zero_division=0`;
`balanced_accuracy_score` is the mean, over the classes present in
`y_true`, of the per-class recall.  True and predicted labels are paired
positionally, as sklearn pairs the two arrays. -/

/-- Count of positions where the true label satisfies `pt` and the
predicted label satisfies `pp`. -/
def pairCount (pt pp : Int → Bool) (yTrue yPred : List Int) : Nat :=
  (yTrue.zip yPred).countP fun a => pt a.1 && pp a.2

/-- `precision_score(y_true, y_pred, zero_division=0)`: TP/(TP+FP), and 0
when there are no positive predictions. -/
def precision_score (yTrue yPred : List Int) : ℚ :=
  let tp := pairCount (· = 1) (· = 1) yTrue yPred
  let fp := pairCount (· ≠ 1) (· = 1) yTrue yPred
  if tp + fp = 0 then 0 else (tp : ℚ) / ((tp : ℚ) + (fp : ℚ))

/-- `recall_score(y_true, y_pred, zero_division=0)`: TP/(TP+FN), and 0
when there are no positive actuals. -/
def recall_score (yTrue yPred : List Int) : ℚ :=
  let tp := pairCount (· = 1) (· = 1) yTrue yPred
  let fn := pairCount (· = 1) (· ≠ 1) yTrue yPred
  if tp + fn = 0 then 0 else (tp : ℚ) / ((tp : ℚ) + (fn : ℚ))

/-- `f1_score(y_true, y_pred, zero_division=0)`: 2·TP/(2·TP+FP+FN), and 0
when that denominator is 0. -/
def f1_score (yTrue yPred : List Int) : ℚ :=
  let tp := pairCount (· = 1) (· = 1) yTrue yPred
  let fp := pairCount (· ≠ 1) (· = 1) yTrue yPred
  let fn := pairCount (· = 1) (· ≠ 1) yTrue yPred
  if 2 * tp + fp + fn = 0 then 0
  else (2 * tp : ℚ) / ((2 * tp : ℚ) + (fp : ℚ) + (fn : ℚ))

/-- Insert a value into a strictly sorted list, keeping it strictly
sorted (the building block of `numpy.unique`). -/
def insertSorted (v : Int) : List Int → List Int
  | [] => [v]
  | w :: ws =>
    if v < w then v :: w :: ws
    else if v = w then w :: ws
    else w :: insertSorted v ws

/-- `numpy.unique`: the sorted list of distinct values. -/
def uniqueSorted (l : List Int) : List Int := l.foldr insertSorted []

/-- Recall restricted to class `c`: correct among actual `c`s. -/
def classRecall (yTrue yPred : List Int) (c : Int) : ℚ :=
  (pairCount (· = c) (· = c) yTrue yPred : ℚ) / (yTrue.countP (· = c) : ℚ)

/-- `balanced_accuracy_score(y_true, y_pred)`: mean per-class recall over
the classes present in `y_true`. -/
def balanced_accuracy_score (yTrue yPred : List Int) : ℚ :=
  let cs := uniqueSorted yTrue
  (cs.map (classRecall yTrue yPred)).sum / (cs.length : ℚ)

/-- One scalar-metrics record (`{"type": "metrics", "dataset": ..}`);
`recall'` and `f1_score'` carry the dict entries `"recall"` and
`"f1_score"` (primed because `recall` is a Lean keyword). -/
structure MetricsRecord where
  type : String
  dataset : String
  precision : ℚ
  balanced_accuracy : ℚ
  recall' : ℚ
  f1_score' : ℚ
deriving Repr, DecidableEq

/-- The scalar-metrics record `metricas` builds for one split. -/
def metricsFor (ds : String) (yTrue yPred : List Int) : MetricsRecord :=
  { type := "metrics"
    dataset := ds
    precision := precision_score yTrue yPred
    balanced_accuracy := balanced_accuracy_score yTrue yPred
    recall' := recall_score yTrue yPred
    f1_score' := f1_score yTrue yPred }

/-- `metricas(model, x_train, y_train, x_test, y_test)`.  The fitted model
is its `predict` capability, a function from the (abstract) feature-table
type `α` to a label list. -/
def metricas {α : Type*} (predict : α → List Int)
    (xTrain : α) (yTrain : List Int) (xTest : α) (yTest : List Int) :
    MetricsRecord × MetricsRecord :=
  let yTrainPred := predict xTrain
  let yTestPred := predict xTest
  (metricsFor "train" yTrain yTrainPred, metricsFor "test" yTest yTestPred)

/-! ## Confusion-matrix records (`matrizConfusion`)

`sklearn.metrics.confusion_matrix(y_true, y_pred)` lays its cells out over
`labels = numpy.unique(concat(y_true, y_pred))`; cell (i, j) counts the
positions with true label `labels[i]` and predicted label `labels[j]`.
The script then reads cells (0,0), (0,1), (1,0), (1,1) unconditionally;
reading outside the matrix raises IndexError, modelled by `Option`. -/

/-- The label axis of the confusion matrix. -/
def confusionLabels (yTrue yPred : List Int) : List Int :=
  uniqueSorted (yTrue ++ yPred)

/-- `cm[i, j]` with IndexError as `none`. -/
def cmEntry (yTrue yPred : List Int) (i j : Nat) : Option Nat := do
  let a ← (confusionLabels yTrue yPred).get? i
  let b ← (confusionLabels yTrue yPred).get? j
  pure (pairCount (· = a) (· = b) yTrue yPred)

/-- One row of the nested mapping (`predicted_0` / `predicted_1`). -/
structure CMRow where
  predicted_0 : Nat
  predicted_1 : Nat
deriving Repr, DecidableEq

/-- One confusion-matrix record (`{"type": "cm_matrix", ..}`). -/
structure CMRecord where
  type : String
  dataset : String
  true_0 : CMRow
  true_1 : CMRow
deriving Repr, DecidableEq

/-- The record `matrizConfusion` builds for one split: the four reads
`cm[0,0]`, `cm[0,1]`, `cm[1,0]`, `cm[1,1]`, failing if any is out of
bounds. -/
def cmRecordFor (ds : String) (yTrue yPred : List Int) : Option CMRecord := do
  let c00 ← cmEntry yTrue yPred 0 0
  let c01 ← cmEntry yTrue yPred 0 1
  let c10 ← cmEntry yTrue yPred 1 0
  let c11 ← cmEntry yTrue yPred 1 1
  pure { type := "cm_matrix"
         dataset := ds
         true_0 := { predicted_0 := c00, predicted_1 := c01 }
         true_1 := { predicted_0 := c10, predicted_1 := c11 } }

/-- `matrizConfusion(model, x_train, y_train, x_test, y_test)`: both
records, or the propagated IndexError. -/
def matrizConfusion {α : Type*} (predict : α → List Int)
    (xTrain : α) (yTrain : List Int) (xTest : α) (yTest : List Int) :
    Option (CMRecord × CMRecord) := do
  let yTrainPred := predict xTrain
  let yTestPred := predict xTest
  let cmTrain ← cmRecordFor "train" yTrain yTrainPred
  let cmTest ← cmRecordFor "test" yTest yTestPred
  pure (cmTrain, cmTest)

/-! ## Persistence writer (`guardarMetricas`)

The filesystem is directories plus an association of paths to file
contents (a list of written lines: each `f.write(json.dumps(m) + "\n")`
appends one line).  `json.dumps` is the JSON library's serializer, so the
writer is parameterised by an encoder from records to strings. -/

/-- A metrics-file line is the serialization of either a scalar-metrics
record or a confusion-matrix record. -/
abbrev MetricsLine := MetricsRecord ⊕ CMRecord

/-- The filesystem: known directories, and file contents by path. -/
structure FileSystem where
  dirs : List String
  files : List (String × List String)

/-- Path lookup in the file table (first match wins). -/
def lookupFile (p : String) : List (String × List String) → Option (List String)
  | [] => none
  | (q, v) :: rest => if q = p then some v else lookupFile p rest

/-- `os.path.dirname`: everything before the final path separator. -/
def dirname (path : String) : String :=
  String.intercalate "/" (path.splitOn "/").dropLast

/-- `os.makedirs(d, exist_ok=True)` (for the non-empty parent the script
passes): ensures `d` is a directory. -/
def makedirs (d : String) (fs : FileSystem) : FileSystem :=
  { fs with dirs := if d ∈ fs.dirs then fs.dirs else d :: fs.dirs }

/-- `open(path, "w")` then writing `lines`: whole-file replacement. -/
def writeFileLines (path : String) (lines : List String) (fs : FileSystem) :
    FileSystem :=
  { fs with files := (path, lines) :: fs.files.filter (fun e => e.1 ≠ path) }

/-- `guardarMetricas(metrics_train, metrics_test, cm_metrics_train,
cm_metrics_test, file_path)`: make the parent directory, then write the
four serialized records, one line each, in that order. -/
def guardarMetricas (dumps : MetricsLine → String)
    (metricsTrain metricsTest : MetricsRecord)
    (cmMetricsTrain cmMetricsTest : CMRecord)
    (path : String) (fs : FileSystem) : FileSystem :=
  let fs1 := makedirs (dirname path) fs
  let todas : List MetricsLine :=
    [Sum.inl metricsTrain, Sum.inl metricsTest,
     Sum.inr cmMetricsTrain, Sum.inr cmMetricsTest]
  writeFileLines path (todas.map dumps) fs1

/-! ## Store semantics for `limpiarDatos`

To settle the no-mutation claim we re-run `limpiarDatos` over an explicit
object store.  Every pandas call in the function (`copy`, `rename`,
`drop`, `dropna`, the boolean filter, `drop(columns=["default"])`)
returns a fresh object, modelled as an allocation at the end of the
store; the single in-place operation, the column assignment
`df["EDUCATION"] = ...`, mutates the frame currently bound to `df` —
which by then is the freshly filtered frame, never the caller's input. -/

/-- The store result: final store, index of the cleaned frame, index of
the feature frame `x`, and the label column `y`. -/
def limpiarDatosStore (s : List DataFrame) (i : Nat) :
    List DataFrame × Nat × Nat × List Cell :=
  let f0 := (s.get? i).getD ⟨[], [], []⟩
  -- df = df.copy()
  let s1 := s ++ [f0]
  -- df = df.rename(columns={"default payment next month": "default"})
  let f1 := renameCol "default payment next month" "default" f0
  let s2 := s1 ++ [f1]
  -- df = df.drop(columns=["ID"])
  let f2 := dropCol "ID" f1
  let s3 := s2 ++ [f2]
  -- df = df.dropna()
  let f3 := dropna f2
  let s4 := s3 ++ [f3]
  -- df = df[(df["EDUCATION"] != 0) & (df["MARRIAGE"] != 0)]
  let f4 := filterEduMarriage f3
  let s5 := s4 ++ [f4]
  -- df["EDUCATION"] = ...  (in place, on the frame df is bound to)
  let j := s4.length
  let f5 := recodeEducation f4
  let s6 := s5.set j f5
  -- x = df.drop(columns=["default"])
  let s7 := s6 ++ [dropCol "default" f5]
  -- y = df["default"]
  let y := f5.rows.map fun r => getCell f5.cols r "default"
  (s7, j, s6.length, y)

/-! ## Derived descriptions of the cleaning pipeline -/

/-- The column names after the rename and the `ID` drop (unchanged by the
row-level steps that follow). -/
def cleanCols (df : DataFrame) : List String :=
  (renameCols "default payment next month" "default" df.cols).filter (· ≠ "ID")

/-- An input row after the rename and the `ID` drop. -/
def droppedRow (df : DataFrame) (r : List Cell) : List Cell :=
  dropColRow (renameCols "default payment next month" "default" df.cols) "ID" r

/-- Whether an input row survives cleaning: no missing cell after the `ID`
drop, and nonzero EDUCATION and MARRIAGE codes. -/
def survives (df : DataFrame) (r : List Cell) : Bool :=
  (droppedRow df r).all (·.isSome) && keepRow (cleanCols df) (droppedRow df r)

/-- The cleaned form of a surviving input row: `ID` dropped, EDUCATION
recoded. -/
def cleanedRow (df : DataFrame) (r : List Cell) : List Cell :=
  recodeRow (cleanCols df) (droppedRow df r)

theorem limpiar_cols_eq (df : DataFrame) : (limpiarDatos df).1.cols = cleanCols df := rfl

theorem pipeline_rows (df : DataFrame) (l : List (List Cell)) :
    List.map (recodeRow (cleanCols df))
      (List.filter (keepRow (cleanCols df))
        (List.filter (fun r => r.all (·.isSome)) (List.map (droppedRow df) l))) =
      (l.filter (survives df)).map (cleanedRow df) := by
  induction l with
  | nil => rfl
  | cons r rs ih =>
    by_cases h1 : (droppedRow df r).all (·.isSome) <;>
      by_cases h2 : keepRow (cleanCols df) (droppedRow df r) <;>
        simp [survives, h1, h2, ih, cleanedRow, -List.filter_filter]

/-- The cleaned dataframe's rows are exactly the surviving input rows,
in input order, each transformed by `cleanedRow`. -/
theorem limpiar_rows_eq (df : DataFrame) :
    (limpiarDatos df).1.rows =
      (df.rows.filter (survives df)).map (cleanedRow df) :=
  pipeline_rows df df.rows

/-- C1: `limpiarDatos` renames the label column to `default`, drops `ID`,
drops rows with missing values, drops rows whose EDUCATION or MARRIAGE
code is 0, recodes EDUCATION (≥ 4 ↦ 4) marking it categorical, and splits
into X and y — in exactly this order, returning `(cleaned, X, y)`. -/
theorem limpiarDatos_applies_steps_in_order (df : DataFrame) :
    limpiarDatos df =
      (recodeEducation (filterEduMarriage (dropna (dropCol "ID"
          (renameCol "default payment next month" "default" df)))),
       dropCol "default" (recodeEducation (filterEduMarriage (dropna (dropCol "ID"
          (renameCol "default payment next month" "default" df))))),
       (recodeEducation (filterEduMarriage (dropna (dropCol "ID"
          (renameCol "default payment next month" "default" df))))).rows.map
         fun r =>
           getCell (recodeEducation (filterEduMarriage (dropna (dropCol "ID"
             (renameCol "default payment next month" "default" df))))).cols r "default") ∧
    "EDUCATION" ∈ (limpiarDatos df).1.catCols := by
  refine ⟨rfl, ?_⟩
  show "EDUCATION" ∈ (recodeEducation _).catCols
  unfold recodeEducation
  dsimp only
  split
  · assumption
  · simp

/-- C4: the cleaned dataframe, X and y have the same row count; y is the
`default` column of the cleaned rows in the same order; X's rows are the
cleaned rows with the `default` column dropped, in the same order; and the
cleaned rows are a subsequence of the transformed input rows (cleaning
preserves the relative order of surviving rows). -/
theorem limpiarDatos_row_alignment (df : DataFrame) :
    (limpiarDatos df).2.1.rows.length = (limpiarDatos df).1.rows.length ∧
    (limpiarDatos df).2.2.length = (limpiarDatos df).1.rows.length ∧
    (limpiarDatos df).2.2 =
      (limpiarDatos df).1.rows.map
        (fun r => getCell (limpiarDatos df).1.cols r "default") ∧
    (limpiarDatos df).2.1.rows =
      (limpiarDatos df).1.rows.map (dropColRow (limpiarDatos df).1.cols "default") ∧
    (limpiarDatos df).1.rows.Sublist (df.rows.map (cleanedRow df)) := by
  refine ⟨by simp [limpiarDatos, dropCol], by simp [limpiarDatos], rfl, rfl, ?_⟩
  rw [limpiar_rows_eq]
  exact (List.filter_sublist df.rows).map (cleanedRow df)

/-! ## Cell-level lemmas about the row transformations -/

theorem lookupCol_zip_zipWith (f : String → Cell → Cell) (c : String) :
    ∀ (cols : List String) (r : List Cell),
      lookupCol c (cols.zip (List.zipWith f cols r)) =
        (lookupCol c (cols.zip r)).map (f c) := by
  intro cols
  induction cols with
  | nil => intro r; simp [lookupCol]
  | cons c0 cs ih =>
    intro r
    cases r with
    | nil => simp [lookupCol]
    | cons v vs =>
      simp only [List.zipWith_cons_cons, List.zip_cons_cons, lookupCol]
      by_cases h : c0 = c
      · subst h; simp
      · rw [if_neg h, if_neg h]
        exact ih vs

/-- Reading a cell of the EDUCATION-recoded row. -/
theorem getCell_recodeRow (cols : List String) (r : List Cell) (c : String) :
    getCell cols (recodeRow cols r) c =
      if c = "EDUCATION" then (getCell cols r c).map recodeEdu else getCell cols r c := by
  unfold getCell recodeRow
  rw [lookupCol_zip_zipWith]
  cases h : lookupCol c (cols.zip r) with
  | none => by_cases hc : c = "EDUCATION" <;> simp [hc]
  | some v => by_cases hc : c = "EDUCATION" <;> simp [hc]

/-- Renaming `old` to `new` does not move any other column. -/
theorem lookupCol_zip_renameCols (old new c : String) (h1 : c ≠ old) (h2 : c ≠ new) :
    ∀ (cols : List String) (r : List Cell),
      lookupCol c ((renameCols old new cols).zip r) = lookupCol c (cols.zip r) := by
  intro cols
  induction cols with
  | nil => intro r; simp [renameCols]
  | cons c0 cs ih =>
    intro r
    cases r with
    | nil => simp [renameCols, lookupCol]
    | cons v vs =>
      simp only [renameCols, List.map_cons, List.zip_cons_cons, lookupCol]
      by_cases h0 : c0 = old
      · subst h0
        simp only [show (if c0 = c0 then new else c0) = new from if_pos rfl]
        rw [if_neg (fun h => h2 h.symm), if_neg (fun h => h1 h.symm)]
        exact ih vs
      · simp only [show (if c0 = old then new else c0) = c0 from if_neg h0]
        by_cases hc : c0 = c
        · simp [hc]
        · rw [if_neg hc, if_neg hc]
          exact ih vs

/-- Dropping every column labelled `c0` from a cons column list. -/
theorem filter_cols_cons_pos (c0 c0' : String) (cs : List String) (h0 : c0' = c0) :
    (c0' :: cs).filter (· ≠ c0) = cs.filter (· ≠ c0) := by simp [h0]

theorem filter_cols_cons_neg (c0 c0' : String) (cs : List String) (h0 : ¬c0' = c0) :
    (c0' :: cs).filter (· ≠ c0) = c0' :: cs.filter (· ≠ c0) := by simp [h0]

theorem dropColRow_cons_pos (c0 c0' : String) (cs : List String) (v : Cell)
    (vs : List Cell) (h0 : c0' = c0) :
    dropColRow (c0' :: cs) c0 (v :: vs) = dropColRow cs c0 vs := by
  simp [dropColRow, h0]

theorem dropColRow_cons_neg (c0 c0' : String) (cs : List String) (v : Cell)
    (vs : List Cell) (h0 : ¬c0' = c0) :
    dropColRow (c0' :: cs) c0 (v :: vs) = v :: dropColRow cs c0 vs := by
  simp [dropColRow, h0]

/-- Dropping column `c0` keeps one cell per remaining column. -/
theorem dropColRow_length (c0 : String) :
    ∀ (cols : List String) (r : List Cell), r.length = cols.length →
      (dropColRow cols c0 r).length = (cols.filter (· ≠ c0)).length := by
  intro cols
  induction cols with
  | nil =>
    intro r h
    cases r with
    | nil => rfl
    | cons v vs => simp at h
  | cons c0' cs ih =>
    intro r h
    cases r with
    | nil => simp at h
    | cons v vs =>
      have hlen : vs.length = cs.length := by simpa using h
      by_cases h0 : c0' = c0
      · rw [filter_cols_cons_pos c0 c0' cs h0, dropColRow_cons_pos c0 c0' cs v vs h0]
        exact ih vs hlen
      · rw [filter_cols_cons_neg c0 c0' cs h0, dropColRow_cons_neg c0 c0' cs v vs h0]
        simp [ih vs hlen]

/-- Dropping column `c0` does not change the cell read under any other
column (for rows aligned with the column list). -/
theorem lookupCol_dropColRow (c0 c : String) (hc : c ≠ c0) :
    ∀ (cols : List String) (r : List Cell), r.length = cols.length →
      lookupCol c ((cols.filter (· ≠ c0)).zip (dropColRow cols c0 r)) =
        lookupCol c (cols.zip r) := by
  intro cols
  induction cols with
  | nil =>
    intro r h
    cases r with
    | nil => rfl
    | cons v vs => simp at h
  | cons c0' cs ih =>
    intro r h
    cases r with
    | nil => simp at h
    | cons v vs =>
      have hlen : vs.length = cs.length := by simpa using h
      by_cases h0 : c0' = c0
      · have hne : ¬c0' = c := fun h => hc (h.symm.trans h0)
        rw [filter_cols_cons_pos c0 c0' cs h0, dropColRow_cons_pos c0 c0' cs v vs h0,
          ih vs hlen, List.zip_cons_cons]
        simp only [lookupCol, if_neg hne]
      · rw [filter_cols_cons_neg c0 c0' cs h0, dropColRow_cons_neg c0 c0' cs v vs h0,
          List.zip_cons_cons, List.zip_cons_cons]
        simp only [lookupCol]
        by_cases hc0 : c0' = c
        · simp [hc0]
        · simp only [if_neg hc0]
          exact ih vs hlen

theorem getCell_dropColRow (c0 c : String) (hc : c ≠ c0) (cols : List String)
    (r : List Cell) (h : r.length = cols.length) :
    getCell (cols.filter (· ≠ c0)) (dropColRow cols c0 r) c = getCell cols r c := by
  unfold getCell
  rw [lookupCol_dropColRow c0 c hc cols r h]

theorem getCell_renameCols (old new c : String) (h1 : c ≠ old) (h2 : c ≠ new)
    (cols : List String) (r : List Cell) :
    getCell (renameCols old new cols) r c = getCell cols r c := by
  unfold getCell
  rw [lookupCol_zip_renameCols old new c h1 h2 cols r]

theorem keepRow_iff (cols : List String) (r : List Cell) :
    keepRow cols r = true ↔
      getCell cols r "EDUCATION" ≠ some 0 ∧ getCell cols r "MARRIAGE" ≠ some 0 := by
  simp [keepRow]

theorem recodeRow_length (cols : List String) (r : List Cell)
    (h : r.length = cols.length) : (recodeRow cols r).length = cols.length := by
  simp [recodeRow, h]

/-- The recode `x ≥ 4 ↦ 4` never produces the excluded code 0. -/
theorem map_recodeEdu_ne_zero (x : Cell) (hx : x ≠ some 0) :
    x.map recodeEdu ≠ some 0 := by
  cases x with
  | none => simp
  | some w =>
    intro h
    have hw : w ≠ 0 := fun hw0 => hx (by rw [hw0])
    have h0 : recodeEdu w = 0 := by simpa using h
    unfold recodeEdu at h0
    split at h0
    · exact absurd h0 (by decide)
    · exact hw h0

/-- Every row of the cleaned dataframe has nonzero EDUCATION and MARRIAGE
codes, and one cell per cleaned column. -/
theorem cleaned_rows_nonzero (df : DataFrame) (hwf : df.WF) :
    ∀ r ∈ (limpiarDatos df).1.rows,
      (getCell (cleanCols df) r "EDUCATION" ≠ some 0 ∧
       getCell (cleanCols df) r "MARRIAGE" ≠ some 0) ∧
      r.length = (cleanCols df).length := by
  intro r hr
  rw [limpiar_rows_eq] at hr
  obtain ⟨r0, hr0, rfl⟩ := List.mem_map.mp hr
  have hr0' := List.mem_filter.mp hr0
  have hs : survives df r0 = true := hr0'.2
  unfold survives at hs
  simp only [Bool.and_eq_true] at hs
  have hkeep : keepRow (cleanCols df) (droppedRow df r0) = true := hs.2
  obtain ⟨hE, hM⟩ := (keepRow_iff _ _).mp hkeep
  have hlen0 : r0.length =
      (renameCols "default payment next month" "default" df.cols).length := by
    simpa [renameCols] using hwf r0 hr0'.1
  have hdlen : (droppedRow df r0).length = (cleanCols df).length :=
    dropColRow_length "ID" _ r0 hlen0
  refine ⟨⟨?_, ?_⟩, ?_⟩
  · show getCell (cleanCols df) (recodeRow (cleanCols df) (droppedRow df r0))
      "EDUCATION" ≠ some 0
    rw [getCell_recodeRow, if_pos rfl]
    exact map_recodeEdu_ne_zero _ hE
  · show getCell (cleanCols df) (recodeRow (cleanCols df) (droppedRow df r0))
      "MARRIAGE" ≠ some 0
    rw [getCell_recodeRow, if_neg (by decide)]
    exact hM
  · exact recodeRow_length _ _ hdlen

/-- C2: no row with EDUCATION code 0 or MARRIAGE code 0 appears in the
cleaned dataframe or in X, and y has exactly one entry per surviving row
(so no excluded row is represented there either). -/
theorem limpiarDatos_excludes_zero_codes (df : DataFrame) (hwf : df.WF) :
    (∀ r ∈ (limpiarDatos df).1.rows,
        getCell (limpiarDatos df).1.cols r "EDUCATION" ≠ some 0 ∧
        getCell (limpiarDatos df).1.cols r "MARRIAGE" ≠ some 0) ∧
    (∀ r ∈ (limpiarDatos df).2.1.rows,
        getCell (limpiarDatos df).2.1.cols r "EDUCATION" ≠ some 0 ∧
        getCell (limpiarDatos df).2.1.cols r "MARRIAGE" ≠ some 0) ∧
    (limpiarDatos df).2.2.length = (limpiarDatos df).1.rows.length := by
  refine ⟨?_, ?_, ?_⟩
  · intro r hr
    exact (cleaned_rows_nonzero df hwf r hr).1
  · intro rX hrX
    have hrX' : rX ∈ ((limpiarDatos df).1.rows).map
        (dropColRow (cleanCols df) "default") := hrX
    obtain ⟨r5, hr5, rfl⟩ := List.mem_map.mp hrX'
    obtain ⟨⟨hE, hM⟩, hlen⟩ := cleaned_rows_nonzero df hwf r5 hr5
    constructor
    · show getCell ((cleanCols df).filter (· ≠ "default"))
        (dropColRow (cleanCols df) "default" r5) "EDUCATION" ≠ some 0
      rw [getCell_dropColRow "default" "EDUCATION" (by decide) _ _ hlen]
      exact hE
    · show getCell ((cleanCols df).filter (· ≠ "default"))
        (dropColRow (cleanCols df) "default" r5) "MARRIAGE" ≠ some 0
      rw [getCell_dropColRow "default" "MARRIAGE" (by decide) _ _ hlen]
      exact hM
  · simp [limpiarDatos]

/-- C3: a surviving input row appears in the cleaned output; its
EDUCATION value there is 4 when the original code was ≥ 4 and unchanged
when the original code was 1, 2 or 3. -/
theorem limpiarDatos_recodes_education (df : DataFrame) (hwf : df.WF)
    (r0 : List Cell) (hr0 : r0 ∈ df.rows) (hs : survives df r0 = true)
    (v : Int) (hv : getCell df.cols r0 "EDUCATION" = some v) :
    cleanedRow df r0 ∈ (limpiarDatos df).1.rows ∧
    (4 ≤ v →
      getCell (limpiarDatos df).1.cols (cleanedRow df r0) "EDUCATION" = some 4) ∧
    (v = 1 ∨ v = 2 ∨ v = 3 →
      getCell (limpiarDatos df).1.cols (cleanedRow df r0) "EDUCATION" = some v) := by
  have hlen0 : r0.length =
      (renameCols "default payment next month" "default" df.cols).length := by
    simpa [renameCols] using hwf r0 hr0
  have hdrop : getCell (cleanCols df) (droppedRow df r0) "EDUCATION" = some v := by
    show getCell ((renameCols "default payment next month" "default" df.cols).filter
        (· ≠ "ID"))
      (dropColRow (renameCols "default payment next month" "default" df.cols) "ID" r0)
      "EDUCATION" = some v
    rw [getCell_dropColRow "ID" "EDUCATION" (by decide) _ _ hlen0,
      getCell_renameCols _ _ "EDUCATION" (by decide) (by decide)]
    exact hv
  have hval : getCell (limpiarDatos df).1.cols (cleanedRow df r0) "EDUCATION" =
      some (recodeEdu v) := by
    show getCell (cleanCols df) (recodeRow (cleanCols df) (droppedRow df r0))
      "EDUCATION" = some (recodeEdu v)
    rw [getCell_recodeRow, if_pos rfl, hdrop]
    rfl
  refine ⟨?_, ?_, ?_⟩
  · rw [limpiar_rows_eq]
    exact List.mem_map_of_mem _ (List.mem_filter.mpr ⟨hr0, hs⟩)
  · intro h4
    rw [hval]
    unfold recodeEdu
    rw [if_pos h4]
  · intro h123
    rw [hval]
    unfold recodeEdu
    rw [if_neg (by rcases h123 with rfl | rfl | rfl <;> decide)]

/-! ## Metric theorems -/

theorem metrics_zero_denominator (yTrue yPred : List Int)
    (h : (yTrue.zip yPred).countP (fun a => a.2 = 1) = 0 ∨
         (yTrue.zip yPred).countP (fun a => a.1 = 1) = 0) :
    precision_score yTrue yPred = 0 ∧ recall_score yTrue yPred = 0 ∧
      f1_score yTrue yPred = 0 := by
  rcases h with h | h
  · have hall : ∀ a ∈ yTrue.zip yPred, ¬a.2 = 1 := by
      rw [List.countP_eq_zero] at h
      intro a ha
      simpa using h a ha
    have htp : pairCount (· = 1) (· = 1) yTrue yPred = 0 := by
      unfold pairCount
      rw [List.countP_eq_zero]
      intro a ha
      simp only [Bool.and_eq_true, decide_eq_true_eq, not_and]
      exact fun _ => hall a ha
    have hfp : pairCount (· ≠ 1) (· = 1) yTrue yPred = 0 := by
      unfold pairCount
      rw [List.countP_eq_zero]
      intro a ha
      simp only [Bool.and_eq_true, decide_eq_true_eq, not_and]
      exact fun _ => hall a ha
    refine ⟨?_, ?_, ?_⟩
    · unfold precision_score
      rw [htp, hfp]
      simp
    · unfold recall_score
      rw [htp]
      simp
    · unfold f1_score
      rw [htp, hfp]
      simp
  · have hall : ∀ a ∈ yTrue.zip yPred, ¬a.1 = 1 := by
      rw [List.countP_eq_zero] at h
      intro a ha
      simpa using h a ha
    have htp : pairCount (· = 1) (· = 1) yTrue yPred = 0 := by
      unfold pairCount
      rw [List.countP_eq_zero]
      intro a ha
      simp only [Bool.and_eq_true, decide_eq_true_eq, not_and]
      exact fun hc => absurd hc (hall a ha)
    have hfn : pairCount (· = 1) (· ≠ 1) yTrue yPred = 0 := by
      unfold pairCount
      rw [List.countP_eq_zero]
      intro a ha
      simp only [Bool.and_eq_true, decide_eq_true_eq, not_and]
      exact fun hc => absurd hc (hall a ha)
    refine ⟨?_, ?_, ?_⟩
    · unfold precision_score
      rw [htp]
      simp
    · unfold recall_score
      rw [htp, hfn]
      simp
    · unfold f1_score
      rw [htp, hfn]
      simp

/-- C5: in the records produced by `metricas`, precision, recall and F1
are exactly 0 — never undefined — whenever the split has no positive
predictions or no positive actuals. -/
theorem metricas_zero_division {α : Type*} (predict : α → List Int)
    (xTrain : α) (yTrain : List Int) (xTest : α) (yTest : List Int) :
    (((yTrain.zip (predict xTrain)).countP (fun a => a.2 = 1) = 0 ∨
      (yTrain.zip (predict xTrain)).countP (fun a => a.1 = 1) = 0) →
      (metricas predict xTrain yTrain xTest yTest).1.precision = 0 ∧
      (metricas predict xTrain yTrain xTest yTest).1.recall' = 0 ∧
      (metricas predict xTrain yTrain xTest yTest).1.f1_score' = 0) ∧
    (((yTest.zip (predict xTest)).countP (fun a => a.2 = 1) = 0 ∨
      (yTest.zip (predict xTest)).countP (fun a => a.1 = 1) = 0) →
      (metricas predict xTrain yTrain xTest yTest).2.precision = 0 ∧
      (metricas predict xTrain yTrain xTest yTest).2.recall' = 0 ∧
      (metricas predict xTrain yTrain xTest yTest).2.f1_score' = 0) :=
  ⟨fun h => metrics_zero_denominator yTrain (predict xTrain) h,
   fun h => metrics_zero_denominator yTest (predict xTest) h⟩

/-- C8: the Metrics Reporter is deterministic — two models whose
`predict` agrees on the given feature tables yield identical scalar
metric records and identical confusion-matrix records. -/
theorem metricas_deterministic {α : Type*} (p1 p2 : α → List Int)
    (xTrain : α) (yTrain : List Int) (xTest : α) (yTest : List Int)
    (h1 : p1 xTrain = p2 xTrain) (h2 : p1 xTest = p2 xTest) :
    metricas p1 xTrain yTrain xTest yTest = metricas p2 xTrain yTrain xTest yTest ∧
    matrizConfusion p1 xTrain yTrain xTest yTest =
      matrizConfusion p2 xTrain yTrain xTest yTest := by
  unfold metricas matrizConfusion
  rw [h1, h2]
  exact ⟨rfl, rfl⟩

/-! ## Confusion-matrix theorems -/

/-- The sorted-unique value list of a 0/1-valued list. -/
theorem uniqueSorted_binary (l : List Int) (hb : ∀ v ∈ l, v = 0 ∨ v = 1) :
    uniqueSorted l =
      if (0 : Int) ∈ l then (if (1 : Int) ∈ l then [0, 1] else [0])
      else (if (1 : Int) ∈ l then [1] else []) := by
  induction l with
  | nil => rfl
  | cons v l ih =>
    have hb2 : ∀ w ∈ l, w = 0 ∨ w = 1 := fun w hw => hb w (List.mem_cons_of_mem _ hw)
    have hv := hb v (List.mem_cons_self _ _)
    have step : uniqueSorted (v :: l) = insertSorted v (uniqueSorted l) := rfl
    rw [step, ih hb2]
    rcases hv with rfl | rfl
    · by_cases h0 : (0 : Int) ∈ l <;> by_cases h1 : (1 : Int) ∈ l <;>
        simp [h0, h1, insertSorted, List.mem_cons]
    · by_cases h0 : (0 : Int) ∈ l <;> by_cases h1 : (1 : Int) ∈ l <;>
        simp [h0, h1, insertSorted, List.mem_cons]

theorem confusionLabels_binary (yTrue yPred : List Int)
    (h0 : (0 : Int) ∈ yTrue ++ yPred) (h1 : (1 : Int) ∈ yTrue ++ yPred)
    (hb : ∀ v ∈ yTrue ++ yPred, v = 0 ∨ v = 1) :
    confusionLabels yTrue yPred = [0, 1] := by
  unfold confusionLabels
  rw [uniqueSorted_binary _ hb, if_pos h0, if_pos h1]

/-- Over 0/1-valued pairs, the four cell counts partition the list. -/
theorem four_cells_sum (L : List (Int × Int))
    (hb : ∀ x ∈ L, (x.1 = 0 ∨ x.1 = 1) ∧ (x.2 = 0 ∨ x.2 = 1)) :
    L.countP (fun a => a.1 = 0 && a.2 = 0) + L.countP (fun a => a.1 = 0 && a.2 = 1) +
      (L.countP (fun a => a.1 = 1 && a.2 = 0) +
       L.countP (fun a => a.1 = 1 && a.2 = 1)) = L.length := by
  induction L with
  | nil => rfl
  | cons x L ih =>
    have hx := hb x (List.mem_cons_self _ _)
    have hb2 : ∀ y ∈ L, (y.1 = 0 ∨ y.1 = 1) ∧ (y.2 = 0 ∨ y.2 = 1) :=
      fun y hy => hb y (List.mem_cons_of_mem _ hy)
    have ih2 := ih hb2
    simp only [List.countP_cons, List.length_cons]
    obtain ⟨h1 | h1, h2 | h2⟩ := hx <;> simp [h1, h2] <;> omega

/-- C7: when both classes 0 and 1 occur among the true labels and
predictions, the confusion-matrix record holds the four counts
(true=0,pred=0), (true=0,pred=1), (true=1,pred=0), (true=1,pred=1) in the
nested `true_0`/`true_1` rows, and they sum to the number of rows in the
split. -/
theorem matrizConfusion_record_cells (ds : String) (yTrue yPred : List Int)
    (h0 : (0 : Int) ∈ yTrue ++ yPred) (h1 : (1 : Int) ∈ yTrue ++ yPred)
    (hb : ∀ v ∈ yTrue ++ yPred, v = 0 ∨ v = 1)
    (hlen : yPred.length = yTrue.length) :
    cmRecordFor ds yTrue yPred =
      some { type := "cm_matrix"
             dataset := ds
             true_0 := { predicted_0 := pairCount (· = 0) (· = 0) yTrue yPred
                         predicted_1 := pairCount (· = 0) (· = 1) yTrue yPred }
             true_1 := { predicted_0 := pairCount (· = 1) (· = 0) yTrue yPred
                         predicted_1 := pairCount (· = 1) (· = 1) yTrue yPred } } ∧
    pairCount (· = 0) (· = 0) yTrue yPred + pairCount (· = 0) (· = 1) yTrue yPred +
      (pairCount (· = 1) (· = 0) yTrue yPred +
       pairCount (· = 1) (· = 1) yTrue yPred) = yTrue.length := by
  have hl := confusionLabels_binary yTrue yPred h0 h1 hb
  constructor
  · unfold cmRecordFor cmEntry
    rw [hl]
    rfl
  · have hzip : ∀ x ∈ yTrue.zip yPred, (x.1 = 0 ∨ x.1 = 1) ∧ (x.2 = 0 ∨ x.2 = 1) := by
      intro x hx
      obtain ⟨a, b⟩ := x
      have hmem := List.of_mem_zip hx
      exact ⟨hb a (List.mem_append_left _ hmem.1), hb b (List.mem_append_right _ hmem.2)⟩
    have hsum := four_cells_sum (yTrue.zip yPred) hzip
    have hzlen : (yTrue.zip yPred).length = yTrue.length := by
      rw [List.length_zip, hlen, Nat.min_self]
    rw [hzlen] at hsum
    exact hsum

/-- C10: `matrizConfusion` reads cells 0 and 1 of the library matrix
unconditionally, so a split whose labels and predictions hold a single
class (a 1×1 matrix) fails with an out-of-bounds read instead of
producing a zero-filled record, while a split with both classes
succeeds. -/
theorem matrizConfusion_single_class_fails :
    matrizConfusion (fun _ : Unit => [0]) () [0] () [0] = none ∧
    matrizConfusion (fun _ : Unit => [0, 1]) () [0, 1] () [0, 1] ≠ none := by
  constructor
  · rfl
  · decide

/-! ## Persistence-writer theorems -/

theorem lookupFile_filter_ne (path q : String) (hq : q ≠ path) :
    ∀ l : List (String × List String),
      lookupFile q (l.filter (fun e => e.1 ≠ path)) = lookupFile q l := by
  intro l
  induction l with
  | nil => rfl
  | cons e l ih =>
    by_cases he : e.1 = path
    · have hne : ¬e.1 = q := fun h => hq (h.symm.trans he)
      rw [show (e :: l).filter (fun e => e.1 ≠ path) = l.filter (fun e => e.1 ≠ path) by
        simp [List.filter_cons, he]]
      rw [ih]
      cases e with
      | mk a b =>
        simp only [lookupFile]
        rw [if_neg hne]
    · rw [show (e :: l).filter (fun e => e.1 ≠ path) = e :: l.filter (fun e => e.1 ≠ path) by
        simp [List.filter_cons, he]]
      cases e with
      | mk a b =>
        simp only [lookupFile]
        by_cases ha : a = q
        · rw [if_pos ha, if_pos ha]
        · rw [if_neg ha, if_neg ha]
          exact ih

/-- C6: `guardarMetricas` leaves the metrics file holding exactly the
four serialized records, one per line, in the order train-metrics,
test-metrics, train-confusion, test-confusion, regardless of any previous
content (full overwrite); the parent directory exists afterwards; and no
other file changes. -/
theorem guardarMetricas_writes_four_lines (dumps : MetricsLine → String)
    (metricsTrain metricsTest : MetricsRecord)
    (cmMetricsTrain cmMetricsTest : CMRecord) (path : String) (fs : FileSystem) :
    lookupFile path (guardarMetricas dumps metricsTrain metricsTest cmMetricsTrain
        cmMetricsTest path fs).files =
      some [dumps (Sum.inl metricsTrain), dumps (Sum.inl metricsTest),
            dumps (Sum.inr cmMetricsTrain), dumps (Sum.inr cmMetricsTest)] ∧
    dirname path ∈ (guardarMetricas dumps metricsTrain metricsTest cmMetricsTrain
        cmMetricsTest path fs).dirs ∧
    ∀ q, q ≠ path →
      lookupFile q (guardarMetricas dumps metricsTrain metricsTest cmMetricsTrain
          cmMetricsTest path fs).files = lookupFile q fs.files := by
  refine ⟨?_, ?_, ?_⟩
  · show lookupFile path ((path, _) :: _) = _
    simp [lookupFile]
  · show dirname path ∈ (makedirs (dirname path) fs).dirs
    unfold makedirs
    dsimp only
    split
    · assumption
    · exact List.mem_cons_self _ _
  · intro q hq
    show lookupFile q ((path, _) :: fs.files.filter (fun e => e.1 ≠ path)) = _
    simp only [lookupFile]
    rw [if_neg (fun h => hq h.symm)]
    exact lookupFile_filter_ne path q hq fs.files

/-! ## Store-semantics theorems (`limpiarDatos` mutates nothing) -/

theorem set_append_singleton {α : Type*} :
    ∀ (l : List α) (a b : α), (l ++ [a]).set l.length b = l ++ [b]
  | [], _, _ => rfl
  | x :: l, a, b => by
    simp only [List.cons_append, List.length_cons, List.set_cons_succ]
    rw [set_append_singleton l a b]

/-- The final store of `limpiarDatosStore`: the caller's store followed
by the six allocations, with the in-place EDUCATION assignment applied to
the fifth slot (the frame `df` was bound to). -/
theorem limpiarDatosStore_eq (s : List DataFrame) (i : Nat) :
    limpiarDatosStore s i =
      (s ++ [(s.get? i).getD ⟨[], [], []⟩,
             renameCol "default payment next month" "default"
               ((s.get? i).getD ⟨[], [], []⟩),
             dropCol "ID" (renameCol "default payment next month" "default"
               ((s.get? i).getD ⟨[], [], []⟩)),
             dropna (dropCol "ID" (renameCol "default payment next month" "default"
               ((s.get? i).getD ⟨[], [], []⟩))),
             (limpiarDatos ((s.get? i).getD ⟨[], [], []⟩)).1,
             (limpiarDatos ((s.get? i).getD ⟨[], [], []⟩)).2.1],
       s.length + 4, s.length + 5,
       (limpiarDatos ((s.get? i).getD ⟨[], [], []⟩)).2.2) := by
  simp only [limpiarDatosStore]
  rw [set_append_singleton]
  simp [limpiarDatos, List.append_assoc]

/-- C9: run over an explicit object store, `limpiarDatos` leaves every
pre-existing object untouched — in particular the caller's input frame —
while the returned cleaned frame, X and y equal the pure function's
results on the input's value. -/
theorem limpiarDatos_no_mutation (s : List DataFrame) (i : Nat) (hi : i < s.length) :
    (limpiarDatosStore s i).1[i]? = s[i]? ∧
    (∀ k, k < s.length → (limpiarDatosStore s i).1[k]? = s[k]?) ∧
    (limpiarDatosStore s i).1[(limpiarDatosStore s i).2.1]? =
      some (limpiarDatos ((s.get? i).getD ⟨[], [], []⟩)).1 ∧
    (limpiarDatosStore s i).1[(limpiarDatosStore s i).2.2.1]? =
      some (limpiarDatos ((s.get? i).getD ⟨[], [], []⟩)).2.1 ∧
    (limpiarDatosStore s i).2.2.2 =
      (limpiarDatos ((s.get? i).getD ⟨[], [], []⟩)).2.2 := by
  have hpres : ∀ k, k < s.length → (limpiarDatosStore s i).1[k]? = s[k]? := by
    intro k hk
    rw [limpiarDatosStore_eq]
    dsimp only
    exact List.getElem?_append_left hk
  refine ⟨hpres i hi, hpres, ?_, ?_, ?_⟩
  · rw [limpiarDatosStore_eq]
    dsimp only
    rw [List.getElem?_append_right (Nat.le_add_right _ _),
      Nat.add_sub_cancel_left s.length 4]
    rfl
  · rw [limpiarDatosStore_eq]
    dsimp only
    rw [List.getElem?_append_right (Nat.le_add_right _ _),
      Nat.add_sub_cancel_left s.length 5]
    rfl
  · rw [limpiarDatosStore_eq]

/-! ## Concrete witnesses -/

/-- A small raw dataset: one surviving row, one row excluded for a zero
MARRIAGE-less EDUCATION code, one row with a missing value. -/
def dfW : DataFrame :=
  { cols := ["ID", "EDUCATION", "MARRIAGE", "default payment next month"]
    rows := [[some 1, some 5, some 1, some 0],
             [some 2, some 0, some 2, some 1],
             [some 3, some 2, none, some 0]]
    catCols := [] }

/-- The surviving row of `dfW`. -/
def rW : List Cell := [some 1, some 5, some 1, some 0]

theorem limpiarDatos_excludes_zero_codes_witness :
    dfW.WF ∧ (limpiarDatos dfW).2.2.length = (limpiarDatos dfW).1.rows.length :=
  ⟨by decide, (limpiarDatos_excludes_zero_codes dfW (by decide)).2.2⟩

theorem limpiarDatos_recodes_education_witness :
    dfW.WF ∧ rW ∈ dfW.rows ∧ survives dfW rW = true ∧
    getCell dfW.cols rW "EDUCATION" = some 5 ∧
    getCell (limpiarDatos dfW).1.cols (cleanedRow dfW rW) "EDUCATION" = some 4 :=
  ⟨by decide, by decide, by decide, by decide,
   (limpiarDatos_recodes_education dfW (by decide) rW (by decide) (by decide) 5
     (by decide)).2.1 (by decide)⟩

theorem metricas_zero_division_witness :
    ((([1, 1] : List Int).zip ((fun _ : Unit => [0, 0]) ())).countP
        (fun a => a.2 = 1) = 0) ∧
    ((metricas (fun _ : Unit => [0, 0]) () [1, 1] () [1, 1]).1.precision = 0 ∧
     (metricas (fun _ : Unit => [0, 0]) () [1, 1] () [1, 1]).1.recall' = 0 ∧
     (metricas (fun _ : Unit => [0, 0]) () [1, 1] () [1, 1]).1.f1_score' = 0) :=
  ⟨by decide,
   (metricas_zero_division (fun _ : Unit => [0, 0]) () [1, 1] () [1, 1]).1
     (Or.inl (by decide))⟩

/-- Writer fixtures: a filesystem that already holds stale metrics plus an
unrelated file, and an arbitrary serializer. -/
def fsW : FileSystem :=
  { dirs := []
    files := [("files/output/metrics.json", ["old"]), ("other", ["keep"])] }

def mW : MetricsRecord :=
  { type := "metrics", dataset := "train", precision := 1,
    balanced_accuracy := 1, recall' := 1, f1_score' := 1 }

def cW : CMRecord :=
  { type := "cm_matrix", dataset := "train",
    true_0 := ⟨1, 0⟩, true_1 := ⟨0, 1⟩ }

def dumpsW : MetricsLine → String := fun _ => "line"

theorem guardarMetricas_writes_four_lines_witness :
    ("other" : String) ≠ "files/output/metrics.json" ∧
    lookupFile "files/output/metrics.json"
        (guardarMetricas dumpsW mW mW cW cW "files/output/metrics.json" fsW).files =
      some [dumpsW (Sum.inl mW), dumpsW (Sum.inl mW),
            dumpsW (Sum.inr cW), dumpsW (Sum.inr cW)] ∧
    lookupFile "other"
        (guardarMetricas dumpsW mW mW cW cW "files/output/metrics.json" fsW).files =
      lookupFile "other" fsW.files :=
  ⟨by decide,
   (guardarMetricas_writes_four_lines dumpsW mW mW cW cW
     "files/output/metrics.json" fsW).1,
   (guardarMetricas_writes_four_lines dumpsW mW mW cW cW
     "files/output/metrics.json" fsW).2.2 "other" (by decide)⟩

theorem matrizConfusion_record_cells_witness :
    ((0 : Int) ∈ ([1, 0, 1, 0] : List Int) ++ [1, 0, 0, 0]) ∧
    ((1 : Int) ∈ ([1, 0, 1, 0] : List Int) ++ [1, 0, 0, 0]) ∧
    (∀ v ∈ ([1, 0, 1, 0] : List Int) ++ [1, 0, 0, 0], v = 0 ∨ v = 1) ∧
    ([1, 0, 0, 0] : List Int).length = ([1, 0, 1, 0] : List Int).length ∧
    pairCount (· = 0) (· = 0) [1, 0, 1, 0] [1, 0, 0, 0] +
        pairCount (· = 0) (· = 1) [1, 0, 1, 0] [1, 0, 0, 0] +
      (pairCount (· = 1) (· = 0) [1, 0, 1, 0] [1, 0, 0, 0] +
       pairCount (· = 1) (· = 1) [1, 0, 1, 0] [1, 0, 0, 0]) =
      ([1, 0, 1, 0] : List Int).length :=
  ⟨by decide, by decide, by decide, by decide,
   (matrizConfusion_record_cells "train" [1, 0, 1, 0] [1, 0, 0, 0]
     (by decide) (by decide) (by decide) (by decide)).2⟩

theorem metricas_deterministic_witness :
    (fun _ : Unit => ([0, 1] : List Int)) () = (fun _ : Unit => [0] ++ [1]) () ∧
    metricas (fun _ : Unit => ([0, 1] : List Int)) () [0, 1] () [0, 1] =
      metricas (fun _ : Unit => [0] ++ [1]) () [0, 1] () [0, 1] :=
  ⟨rfl,
   (metricas_deterministic (fun _ : Unit => ([0, 1] : List Int))
     (fun _ : Unit => [0] ++ [1]) () [0, 1] () [0, 1] rfl rfl).1⟩

theorem limpiarDatos_no_mutation_witness :
    (0 : Nat) < [dfW].length ∧ (limpiarDatosStore [dfW] 0).1[0]? = some dfW := by
  refine ⟨by decide, ?_⟩
  rw [(limpiarDatos_no_mutation [dfW] 0 (by decide)).1]
  rfl

end Homework
